import Mathlib

/-!
Verification of `watermark.py`, a single-file utility that stamps a text
watermark onto PDF files.

The embedding models:
* filesystem paths as `FsPath` (pathlib's `parent` / `stem` / `suffix` view,
  the only three accessors the script uses);
* PDF documents as lists of abstract pages (`PdfDoc`); the external PDF
  libraries (reportlab, PyPDF2) are black boxes per the design notes, modelled
  by their capability contract: rendering produces a one-page document,
  `getPage i` is list indexing, `merge_page` composites two pages, and
  `PdfFileWriter.write` stores the accumulated page list at a path;
* the filesystem as an association list from paths to documents, where
  `open(path, "wb")` + `write` is `fsWrite` (shadowing update) and
  `open(path, "rb")` + `PdfFileReader` is `fsRead`;
* the nondeterministic `tempfile.mkstemp` names as explicit parameters;
* Python exceptions as an `Except WErr` result; a raised exception carries the
  filesystem as it was at the raise point (the script has no handlers).
-/

set_option autoImplicit false

/-- A filesystem path, as the script views it through pathlib: the containing
directory (`parent`), the file name without its last extension (`stem`) and
the last extension including the dot (`suffix`).  pathlib's `name` is
`stem ++ suffix`, and `Path(parent, name)` rebuilds a path from the pieces. -/
structure FsPath where
  parent : String
  stem : String
  suffix : String
deriving DecidableEq, Repr

/-- pathlib's `Path.name`: base file name, extension included. -/
def FsPath.name (p : FsPath) : String :=
  p.stem ++ p.suffix

/-- An abstract PDF page.  `rendered text` is the page drawn by the reportlab
canvas in `create_watermark` (A4, gray at 60% opacity, Helvetica 50, frame
rotated 45°, text centred at the fixed anchor — all fixed, so the text alone
determines the page).  `content id` is an arbitrary pre-existing page of an
input document.  `merged base overlay` is the result of PyPDF2's
`base.merge_page(overlay)`: the overlay composited onto the base page. -/
inductive Page where
  | rendered (text : String)
  | content (id : Nat)
  | merged (base : Page) (overlay : Page)
deriving DecidableEq, Repr

/-- A PDF document: its list of pages.  `pages.length` is PyPDF2's
`getNumPages()`; `pages[i]` is `getPage(i)`. -/
structure PdfDoc where
  pages : List Page
deriving DecidableEq, Repr

/-- The filesystem: an association list from paths to the PDF documents
stored there.  Later entries are shadowed by earlier ones. -/
abbrev Fs : Type := List (FsPath × PdfDoc)

/-- `open(path, "rb")` + `PdfFileReader`: the document currently stored at
`p`, or `none` when no entry exists (Python raises FileNotFoundError). -/
def fsRead : Fs → FsPath → Option PdfDoc
  | [], _ => none
  | (q, d) :: rest, p => if q = p then some d else fsRead rest p

/-- `open(path, "wb")` + `write`: store document `d` at path `p`,
shadowing any previous entry. -/
def fsWrite (fs : Fs) (p : FsPath) (d : PdfDoc) : Fs :=
  (p, d) :: fs

/-- The set of paths at which a filesystem entry exists (`Path.exists()`
is membership in this list). -/
def fsPaths (fs : Fs) : List FsPath :=
  fs.map Prod.fst

/-- `MAX_TEXT_LENGTH = 28  # including spaces` -/
def MAX_TEXT_LENGTH : Nat := 28

/-- `correct_pdf_path`: return the path unchanged when its suffix is already
`.pdf`, otherwise replace the suffix by `.pdf`. -/
def correct_pdf_path (file_path : FsPath) : FsPath :=
  if file_path.suffix = ".pdf" then file_path else { file_path with suffix := ".pdf" }

/-- Errors the script can raise: the failed `assert len(text) <
MAX_TEXT_LENGTH` (the spec's InvalidInputError), a missing file on `open`
(FileNotFoundError), and an out-of-range `getPage` (IndexError). -/
inductive WErr where
  | invalidInput
  | fileNotFound
  | pageIndex
deriving DecidableEq, Repr

deriving instance DecidableEq for Except

/-- The single-page document written by the reportlab canvas in
`create_watermark`: one page bearing the watermark text. -/
def renderDoc (text : String) : PdfDoc :=
  ⟨[Page.rendered text]⟩

/-- `create_watermark(text, output_file_path=None)`.  The `assert` on the
text length runs before anything touches the filesystem.  When no output
path is given the script draws a fresh `tempfile.mkstemp` name; that
nondeterministic choice is the explicit `tmp_path` parameter.  The chosen
path is passed through `correct_pdf_path`, the canvas writes a one-page PDF
there, and the path is returned.  The returned filesystem is the state after
the call (unchanged when the assert fails). -/
def create_watermark (text : String) (output_file_path : Option FsPath)
    (tmp_path : FsPath) (fs : Fs) : Except WErr FsPath × Fs :=
  if text.length < MAX_TEXT_LENGTH then
    let out := correct_pdf_path (output_file_path.getD tmp_path)
    (Except.ok out, fsWrite fs out (renderDoc text))
  else
    (Except.error WErr.invalidInput, fs)

/-- One step of the `while file_path.exists()` loop in `ensure_new_file`:
`Path(file_path.parent, f"{file_path.stem}_{index}{file_path.suffix}")`. -/
def nextCandidate (file_path : FsPath) (index : Nat) : FsPath :=
  { file_path with stem := file_path.stem ++ "_" ++ toString index }

/-- The loop of `ensure_new_file`, with explicit fuel: while the current
candidate exists, move to the next candidate and increment the index.
`ensure_new_file` runs it with fuel `|existing| + 1`, which
`ensure_new_file_spec` proves sufficient. -/
def ensure_go : Nat → List FsPath → FsPath → Nat → Option FsPath
  | 0, _, _, _ => none
  | fuel + 1, existing, file_path, index =>
    if file_path ∈ existing then
      ensure_go fuel existing (nextCandidate file_path index) (index + 1)
    else
      some file_path

/-- `ensure_new_file(file_path)`: starting from `file_path` with `index = 1`,
repeat `nextCandidate` while the candidate exists, and return the first
candidate with no filesystem entry.  `existing` is the list of paths that
exist at call time.  The fuel `|existing| + 1` never runs out
(`ensure_new_file_spec`), so the `getD` default is never taken. -/
def ensure_new_file (existing : List FsPath) (file_path : FsPath) : FsPath :=
  (ensure_go (existing.length + 1) existing file_path 1).getD file_path

/-- The candidate visited by iteration `k` of the `ensure_new_file` loop when
it starts at `file_path` with index `index`: iteration `k` has seen indices
`index, index+1, …, index+k-1`. -/
def candSeq (file_path : FsPath) (index : Nat) : Nat → FsPath
  | 0 => file_path
  | k + 1 => nextCandidate (candSeq file_path index k) (index + k)

/-- `duplicate_watermark(watermark_path, page_count, output_file_path=None)`:
choose the output path (mkstemp fallback, then `correct_pdf_path`), read the
watermark document, take its page 0 (IndexError when the document is empty),
append that same page `page_count` times to a fresh writer, and write the
result to the output path. -/
def duplicate_watermark (fs : Fs) (watermark_path : FsPath) (page_count : Nat)
    (output_file_path : Option FsPath) (tmp_path : FsPath) : Except WErr FsPath × Fs :=
  let out := correct_pdf_path (output_file_path.getD tmp_path)
  match fsRead fs watermark_path with
  | none => (Except.error WErr.fileNotFound, fs)
  | some watermark_pdf =>
    match watermark_pdf.pages with
    | [] => (Except.error WErr.pageIndex, fs)
    | watermark_page :: _ =>
      (Except.ok out, fsWrite fs out ⟨List.replicate page_count watermark_page⟩)

/-- The merge loop of `add_watermark`: for each `i` in `range(page_count)`
(where `page_count` is the length of the input page list), composite
watermark page `i` onto input page `i` and append the result.  Indexing the
watermark list past its end is PyPDF2's IndexError, hence `none`; watermark
pages beyond the input's length are ignored, as in the source. -/
def merge_pages : List Page → List Page → Option (List Page)
  | [], _ => some []
  | _ :: _, [] => none
  | p :: ps, w :: ws => (merge_pages ps ws).map (fun rest => Page.merged p w :: rest)

/-- The desired output path of `add_watermark`:
`Path(input_file_path.parent, f"{input_file_path.stem}_watermarked.pdf")`. -/
def watermarked_path (input_file_path : FsPath) : FsPath :=
  ⟨input_file_path.parent, input_file_path.stem ++ "_watermarked", ".pdf"⟩

/-- `add_watermark(input_file_path, watermark_file_path)`: build the desired
output path `Path(parent, f"{stem}_watermarked.pdf")`, disambiguate it with
`ensure_new_file` against the paths existing at call time, read the input,
replicate the watermark to the input's page count (writing a temp file whose
mkstemp name is the explicit `tmp_path` parameter), read the replicated
watermark back, merge page by page, and write the merged document to the
resolved path.  The source returns `None`; the embedding returns the resolved
output path — the one observable the caller lacks — next to the filesystem. -/
def add_watermark (fs : Fs) (input_file_path : FsPath) (watermark_file_path : FsPath)
    (tmp_path : FsPath) : Except WErr FsPath × Fs :=
  let new_file_path := ensure_new_file (fsPaths fs) (watermarked_path input_file_path)
  match fsRead fs input_file_path with
  | none => (Except.error WErr.fileNotFound, fs)
  | some input_pdf =>
    let page_count := input_pdf.pages.length
    match duplicate_watermark fs watermark_file_path page_count none tmp_path with
    | (Except.error e, fs1) => (Except.error e, fs1)
    | (Except.ok tmp_watermark_path, fs1) =>
      match fsRead fs1 tmp_watermark_path with
      | none => (Except.error WErr.fileNotFound, fs1)
      | some tmp_watermark_pdf =>
        match merge_pages input_pdf.pages tmp_watermark_pdf.pages with
        | none => (Except.error WErr.pageIndex, fs1)
        | some merged => (Except.ok new_file_path, fsWrite fs1 new_file_path ⟨merged⟩)

/-- The input-selection logic of `main` (lines 148–154): default missing
`-x` and `-f` to `[]`; when the (possibly defaulted) `-f` list is empty,
take the `*.pdf` glob of the current directory (`cwd_pdfs` parameter, the
glob being out of scope) filtered by base name against the exclude list,
otherwise filter the `-f` list the same way. -/
def select_files (input_files : Option (List FsPath)) (exclude : Option (List String))
    (cwd_pdfs : List FsPath) : List FsPath :=
  let exclude_list := exclude.getD []
  let file_list := input_files.getD []
  if file_list.isEmpty then
    cwd_pdfs.filter (fun f => !(exclude_list.contains f.name))
  else
    (input_files.getD []).filter (fun f => !(exclude_list.contains f.name))

/-- The candidate list `main` starts from before the exclude filter: the
`-f` list when it is present and non-empty, the directory glob otherwise. -/
def candidate_files (input_files : Option (List FsPath)) (cwd_pdfs : List FsPath) : List FsPath :=
  if (input_files.getD []).isEmpty then cwd_pdfs else input_files.getD []

/-- One program run on a single input file: `create_watermark` on the
watermark text (temp name `wm_tmp`), then `add_watermark` on the input
(temp name `dup_tmp`), as `main` does. -/
def run_once (text : String) (wm_tmp dup_tmp : FsPath) (input_file : FsPath)
    (fs : Fs) : Except WErr FsPath × Fs :=
  match create_watermark text none wm_tmp fs with
  | (Except.error e, fs1) => (Except.error e, fs1)
  | (Except.ok watermark_file_path, fs1) =>
    add_watermark fs1 input_file watermark_file_path dup_tmp

/-! ### Filesystem lemmas -/

theorem fsRead_fsWrite_self (fs : Fs) (p : FsPath) (d : PdfDoc) :
    fsRead (fsWrite fs p d) p = some d := by
  simp [fsRead, fsWrite]

theorem fsRead_fsWrite_ne (fs : Fs) (d : PdfDoc) {p q : FsPath} (h : p ≠ q) :
    fsRead (fsWrite fs p d) q = fsRead fs q := by
  simp [fsRead, fsWrite, h]

theorem fsPaths_fsWrite (fs : Fs) (p : FsPath) (d : PdfDoc) :
    fsPaths (fsWrite fs p d) = p :: fsPaths fs := rfl

/-! ### `ensure_new_file` loop lemmas -/

theorem ensure_go_not_mem (existing : List FsPath) :
    ∀ (fuel : Nat) (p : FsPath) (i : Nat) (q : FsPath),
      ensure_go fuel existing p i = some q → q ∉ existing := by
  intro fuel
  induction fuel with
  | zero => intro p i q h; simp [ensure_go] at h
  | succ fuel ih =>
    intro p i q h
    by_cases hp : p ∈ existing
    · rw [ensure_go, if_pos hp] at h
      exact ih _ _ q h
    · rw [ensure_go, if_neg hp] at h
      cases h
      exact hp

theorem candSeq_shift (p : FsPath) (i : Nat) :
    ∀ k, candSeq p i (k + 1) = candSeq (nextCandidate p i) (i + 1) k := by
  intro k
  induction k with
  | zero => rfl
  | succ k ih =>
    show nextCandidate (candSeq p i (k + 1)) (i + (k + 1))
        = nextCandidate (candSeq (nextCandidate p i) (i + 1) k) ((i + 1) + k)
    rw [ih]
    congr 1
    omega

theorem ensure_go_eq (existing : List FsPath) :
    ∀ (k : Nat) (p : FsPath) (i fuel : Nat), k < fuel →
      (∀ j, j < k → candSeq p i j ∈ existing) →
      candSeq p i k ∉ existing →
      ensure_go fuel existing p i = some (candSeq p i k) := by
  intro k
  induction k with
  | zero =>
    intro p i fuel hf _ hout
    obtain ⟨f, rfl⟩ : ∃ f, fuel = f + 1 := ⟨fuel - 1, by omega⟩
    have hout2 : p ∉ existing := hout
    rw [ensure_go, if_neg hout2]
    rfl
  | succ k ih =>
    intro p i fuel hf hin hout
    obtain ⟨f, rfl⟩ : ∃ f, fuel = f + 1 := ⟨fuel - 1, by omega⟩
    have hp : p ∈ existing := hin 0 (Nat.succ_pos k)
    rw [ensure_go, if_pos hp, candSeq_shift]
    exact ih (nextCandidate p i) (i + 1) f (by omega)
      (fun j hj => by rw [← candSeq_shift]; exact hin (j + 1) (by omega))
      (by rw [← candSeq_shift]; exact hout)

theorem nextCandidate_stem_length (p : FsPath) (i : Nat) :
    p.stem.length < (nextCandidate p i).stem.length := by
  have h1 : ("_" : String).length = 1 := rfl
  simp only [nextCandidate, String.length_append, h1]
  omega

theorem candSeq_stem_length_strictMono (p : FsPath) (i : Nat) :
    StrictMono (fun k => (candSeq p i k).stem.length) :=
  strictMono_nat_of_lt_succ (fun k => nextCandidate_stem_length (candSeq p i k) (i + k))

theorem candSeq_injective (p : FsPath) (i : Nat) : Function.Injective (candSeq p i) := by
  intro a b h
  exact (candSeq_stem_length_strictMono p i).injective (by rw [h])

theorem candSeq_escape (existing : List FsPath) (p : FsPath) (i : Nat) :
    ∃ k, k ≤ existing.length ∧ candSeq p i k ∉ existing := by
  by_contra h
  push_neg at h
  have hsub : (List.range (existing.length + 1)).map (candSeq p i) ⊆ existing := by
    intro x hx
    simp only [List.mem_map, List.mem_range] at hx
    obtain ⟨k, hk, rfl⟩ := hx
    exact h k (by omega)
  have hnd : ((List.range (existing.length + 1)).map (candSeq p i)).Nodup :=
    (List.nodup_range _).map (candSeq_injective p i)
  have hle := (hnd.subperm hsub).length_le
  simp only [List.length_map, List.length_range] at hle
  omega

theorem ensure_new_file_spec (existing : List FsPath) (p : FsPath) :
    ∃ k, (∀ j, j < k → candSeq p 1 j ∈ existing) ∧
      candSeq p 1 k ∉ existing ∧
      ensure_new_file existing p = candSeq p 1 k := by
  obtain ⟨k0, hk0, hout⟩ := candSeq_escape existing p 1
  have hex : ∃ k, candSeq p 1 k ∉ existing := ⟨k0, hout⟩
  refine ⟨Nat.find hex, ?_, Nat.find_spec hex, ?_⟩
  · intro j hj
    have := Nat.find_min hex hj
    simpa using this
  · have hlt : Nat.find hex < existing.length + 1 :=
      lt_of_le_of_lt (Nat.find_min' hex hout) (by omega)
    rw [ensure_new_file,
      ensure_go_eq existing (Nat.find hex) p 1 _ hlt
        (fun j hj => by simpa using Nat.find_min hex hj) (Nat.find_spec hex)]
    rfl

theorem ensure_new_file_not_mem (existing : List FsPath) (p : FsPath) :
    ensure_new_file existing p ∉ existing := by
  obtain ⟨k, _, hout, heq⟩ := ensure_new_file_spec existing p
  rw [heq]
  exact hout

theorem candSeq_parent (p : FsPath) (i : Nat) : ∀ k, (candSeq p i k).parent = p.parent := by
  intro k
  induction k with
  | zero => rfl
  | succ k ih => exact ih

theorem candSeq_suffix (p : FsPath) (i : Nat) : ∀ k, (candSeq p i k).suffix = p.suffix := by
  intro k
  induction k with
  | zero => rfl
  | succ k ih => exact ih

theorem candSeq_stem_length_le (p : FsPath) (i k : Nat) :
    p.stem.length ≤ (candSeq p i k).stem.length := by
  cases k with
  | zero => exact le_refl _
  | succ k => exact le_of_lt (candSeq_stem_length_strictMono p i (Nat.succ_pos k))

theorem ensure_new_file_parent (existing : List FsPath) (p : FsPath) :
    (ensure_new_file existing p).parent = p.parent := by
  obtain ⟨k, _, _, heq⟩ := ensure_new_file_spec existing p
  rw [heq]
  exact candSeq_parent p 1 k

theorem ensure_new_file_stem_length (existing : List FsPath) (p : FsPath) :
    p.stem.length ≤ (ensure_new_file existing p).stem.length := by
  obtain ⟨k, _, _, heq⟩ := ensure_new_file_spec existing p
  rw [heq]
  exact candSeq_stem_length_le p 1 k

/-! ### Merge-loop lemmas -/

theorem merge_pages_replicate (pg : Page) :
    ∀ ps : List Page, merge_pages ps (List.replicate ps.length pg) =
      some (ps.map (fun q => Page.merged q pg)) := by
  intro ps
  induction ps with
  | nil => rfl
  | cons p ps ih => simp [merge_pages, List.replicate, ih]

/-! ### Path helper lemmas -/

theorem correct_pdf_path_parent (p : FsPath) : (correct_pdf_path p).parent = p.parent := by
  unfold correct_pdf_path
  split <;> rfl

theorem ne_of_parent_ne {p q : FsPath} (h : p.parent ≠ q.parent) : p ≠ q :=
  fun heq => h (congrArg FsPath.parent heq)

theorem append_ne_of_length_pos (s t : String) (ht : 0 < t.length) : s ++ t ≠ s := by
  intro h
  have hl := congrArg String.length h
  rw [String.length_append] at hl
  omega

theorem nextCandidate_ne (p : FsPath) (i : Nat) : nextCandidate p i ≠ p := by
  intro h
  have hl := nextCandidate_stem_length p i
  rw [h] at hl
  omega

theorem watermarked_path_parent (p : FsPath) : (watermarked_path p).parent = p.parent := rfl

theorem watermarked_path_ne (p : FsPath) : watermarked_path p ≠ p := by
  intro h
  have hs := congrArg (fun q : FsPath => q.stem.length) h
  simp only [watermarked_path, String.length_append] at hs
  have h12 : ("_watermarked" : String).length = 12 := rfl
  omega

/-! ### `ensure_new_file`: first steps of the loop -/

theorem ensure_new_file_of_not_mem (existing : List FsPath) (p : FsPath)
    (h : p ∉ existing) : ensure_new_file existing p = p := by
  rw [ensure_new_file, ensure_go, if_neg h]
  rfl

theorem ensure_new_file_of_mem_once (existing : List FsPath) (p : FsPath)
    (h : p ∈ existing) (h2 : nextCandidate p 1 ∉ existing) :
    ensure_new_file existing p = nextCandidate p 1 := by
  rw [ensure_new_file, ensure_go, if_pos h]
  obtain ⟨f, hf⟩ : ∃ f, existing.length = f + 1 :=
    ⟨existing.length - 1, by have := List.length_pos.mpr (List.ne_nil_of_mem h); omega⟩
  rw [hf, ensure_go, if_neg h2]
  rfl

theorem ensure_new_file_ne_input (existing : List FsPath) (p : FsPath) :
    ensure_new_file existing (watermarked_path p) ≠ p := by
  intro h
  have hl := ensure_new_file_stem_length existing (watermarked_path p)
  rw [h] at hl
  simp only [watermarked_path, String.length_append] at hl
  have h12 : ("_watermarked" : String).length = 12 := rfl
  omega

/-! ### Success shape of `add_watermark` and `run_once` -/

theorem add_watermark_ok (fs : Fs) (input_file_path watermark_file_path tmp_path : FsPath)
    (input_pdf : PdfDoc) (pg : Page) (rest : List Page)
    (hin : fsRead fs input_file_path = some input_pdf)
    (hwm : fsRead fs watermark_file_path = some ⟨pg :: rest⟩) :
    add_watermark fs input_file_path watermark_file_path tmp_path =
      (Except.ok (ensure_new_file (fsPaths fs) (watermarked_path input_file_path)),
        fsWrite
          (fsWrite fs (correct_pdf_path tmp_path) ⟨List.replicate input_pdf.pages.length pg⟩)
          (ensure_new_file (fsPaths fs) (watermarked_path input_file_path))
          ⟨input_pdf.pages.map (fun q => Page.merged q pg)⟩) := by
  simp only [add_watermark, duplicate_watermark, hin, hwm, Option.getD_none,
    fsRead_fsWrite_self, merge_pages_replicate]

theorem run_once_eq (text : String) (wm_tmp dup_tmp input_file : FsPath) (fs : Fs)
    (hlen : text.length < MAX_TEXT_LENGTH) :
    run_once text wm_tmp dup_tmp input_file fs =
      add_watermark (fsWrite fs (correct_pdf_path wm_tmp) (renderDoc text))
        input_file (correct_pdf_path wm_tmp) dup_tmp := by
  simp only [run_once, create_watermark, if_pos hlen, Option.getD_none]

/-! ### Claim theorems -/

/-- C1: the claim says repeated resolution of an already-taken
`name_watermarked.pdf` yields suffixes `_1`, `_2`, `_3`, … inserted after the
base name.  The code disagrees from the third resolution on: the loop rebuilds
each candidate from the stem of the *previous candidate*, so once
`name_watermarked.pdf` and `name_watermarked_1.pdf` both exist it returns
`name_watermarked_1_2.pdf`, not `name_watermarked_2.pdf` — contradicting the
function's own docstring ("appending an index to the original file name"). -/
theorem ensure_new_file_suffix_accumulates :
    ensure_new_file
        [⟨"d", "name_watermarked", ".pdf"⟩, ⟨"d", "name_watermarked_1", ".pdf"⟩]
        ⟨"d", "name_watermarked", ".pdf"⟩
      = ⟨"d", "name_watermarked_1_2", ".pdf"⟩ ∧
    ensure_new_file
        [⟨"d", "name_watermarked", ".pdf"⟩, ⟨"d", "name_watermarked_1", ".pdf"⟩]
        ⟨"d", "name_watermarked", ".pdf"⟩
      ≠ ⟨"d", "name_watermarked_2", ".pdf"⟩ := by
  decide

/-- C3: `create_watermark` checks the text length before any filesystem
effect: for `len(text) ≥ 28` it fails with the invalid-input error and the
filesystem is returned unchanged (no file, temporary or otherwise, was
created); for `len(text) < 28` it succeeds, writes exactly one file — a
single-page PDF — and returns its path. -/
theorem create_watermark_length_gate
    (text : String) (output_file_path : Option FsPath) (tmp_path : FsPath) (fs : Fs) :
    (MAX_TEXT_LENGTH ≤ text.length →
      create_watermark text output_file_path tmp_path fs = (Except.error WErr.invalidInput, fs)) ∧
    (text.length < MAX_TEXT_LENGTH →
      ∃ out, create_watermark text output_file_path tmp_path fs =
          (Except.ok out, fsWrite fs out (renderDoc text)) ∧
        (renderDoc text).pages.length = 1) := by
  constructor
  · intro h
    rw [create_watermark, if_neg (by omega)]
  · intro h
    exact ⟨_, by rw [create_watermark, if_pos h], rfl⟩

/-- Witness for C3 at two concrete inputs: a 28-character text fails with the
filesystem untouched, and a 12-character text writes one single-page file. -/
theorem create_watermark_length_gate_witness :
    create_watermark "ABCDEFGHIJKLMNOPQRSTUVWXYZAB" none ⟨"tmp", "w", ".txt"⟩ [] =
        (Except.error WErr.invalidInput, []) ∧
    ∃ out, create_watermark "CONFIDENTIAL" none ⟨"tmp", "w", ".pdf"⟩ [] =
        (Except.ok out, fsWrite [] out (renderDoc "CONFIDENTIAL")) ∧
      (renderDoc "CONFIDENTIAL").pages.length = 1 :=
  ⟨(create_watermark_length_gate "ABCDEFGHIJKLMNOPQRSTUVWXYZAB" none ⟨"tmp", "w", ".txt"⟩ []).1
      (by decide),
   (create_watermark_length_gate "CONFIDENTIAL" none ⟨"tmp", "w", ".pdf"⟩ []).2
      (by decide)⟩

/-- C4: when the watermark path holds a readable document whose page list is
`pg :: rest`, `duplicate_watermark` succeeds for every `page_count ≥ 0` and
writes a document with exactly `page_count` pages, each a copy of the first
page `pg`; and the result depends only on that first page — any filesystem
storing a document with the same first page (whatever its other pages) at the
watermark path produces the same written document at the same output path. -/
theorem duplicate_watermark_first_page_replication
    (fs : Fs) (watermark_path : FsPath) (page_count : Nat)
    (output_file_path : Option FsPath) (tmp_path : FsPath) (pg : Page) (rest : List Page)
    (hwm : fsRead fs watermark_path = some ⟨pg :: rest⟩) :
    ∃ out fs2,
      duplicate_watermark fs watermark_path page_count output_file_path tmp_path =
        (Except.ok out, fs2) ∧
      fsRead fs2 out = some ⟨List.replicate page_count pg⟩ ∧
      (List.replicate page_count pg).length = page_count ∧
      (∀ q ∈ List.replicate page_count pg, q = pg) ∧
      (∀ (fs3 : Fs) (rest2 : List Page), fsRead fs3 watermark_path = some ⟨pg :: rest2⟩ →
        duplicate_watermark fs3 watermark_path page_count output_file_path tmp_path =
          (Except.ok out, fsWrite fs3 out ⟨List.replicate page_count pg⟩)) := by
  have heq : duplicate_watermark fs watermark_path page_count output_file_path tmp_path =
      (Except.ok (correct_pdf_path (output_file_path.getD tmp_path)),
        fsWrite fs (correct_pdf_path (output_file_path.getD tmp_path))
          ⟨List.replicate page_count pg⟩) := by
    simp only [duplicate_watermark, hwm]
  refine ⟨_, _, heq, fsRead_fsWrite_self _ _ _, List.length_replicate _ _,
    fun q hq => List.eq_of_mem_replicate hq, ?_⟩
  intro fs3 rest2 h3
  simp only [duplicate_watermark, h3]

/-- Witness for C4: a two-page watermark document replicated to three pages;
only its first page appears in the output. -/
theorem duplicate_watermark_first_page_replication_witness :
    ∃ out fs2,
      duplicate_watermark [(⟨"t", "w", ".pdf"⟩, ⟨[Page.rendered "W", Page.content 9]⟩)]
          ⟨"t", "w", ".pdf"⟩ 3 none ⟨"t", "z", ".pdf"⟩ = (Except.ok out, fs2) ∧
      fsRead fs2 out = some ⟨List.replicate 3 (Page.rendered "W")⟩ ∧
      (List.replicate 3 (Page.rendered "W")).length = 3 ∧
      (∀ q ∈ List.replicate 3 (Page.rendered "W"), q = Page.rendered "W") ∧
      (∀ (fs3 : Fs) (rest2 : List Page),
        fsRead fs3 ⟨"t", "w", ".pdf"⟩ = some ⟨Page.rendered "W" :: rest2⟩ →
        duplicate_watermark fs3 ⟨"t", "w", ".pdf"⟩ 3 none ⟨"t", "z", ".pdf"⟩ =
          (Except.ok out, fsWrite fs3 out ⟨List.replicate 3 (Page.rendered "W")⟩)) :=
  duplicate_watermark_first_page_replication _ _ 3 none _ (Page.rendered "W") [Page.content 9]
    (by decide)

/-- C9: a file belongs to the processed list exactly when it belongs to the
candidate list (the `-f` list when present and non-empty, the directory glob
otherwise) and its base file name is not in the exclude list. -/
theorem select_files_filters_by_base_name
    (input_files : Option (List FsPath)) (exclude : Option (List String))
    (cwd_pdfs : List FsPath) (f : FsPath) :
    f ∈ select_files input_files exclude cwd_pdfs ↔
      f ∈ candidate_files input_files cwd_pdfs ∧ f.name ∉ exclude.getD [] := by
  cases hb : (input_files.getD []).isEmpty <;>
    simp [select_files, candidate_files, hb, List.mem_filter]

/-- C10: passing `-f` with zero arguments yields the empty explicit list,
which is falsy, so the selection falls back to the directory glob exactly as
when `-f` is omitted. -/
theorem empty_input_files_defaults_to_glob
    (exclude : Option (List String)) (cwd_pdfs : List FsPath) :
    select_files (some []) exclude cwd_pdfs = select_files none exclude cwd_pdfs := rfl

/-- C5: for a readable input document and a readable non-empty watermark
document, `add_watermark` succeeds and the document written at the resolved
output path has exactly as many pages as the input — one merged page per
input page index. -/
theorem add_watermark_preserves_page_count
    (fs : Fs) (input_file_path watermark_file_path tmp_path : FsPath)
    (input_pdf : PdfDoc) (pg : Page) (rest : List Page)
    (hin : fsRead fs input_file_path = some input_pdf)
    (hwm : fsRead fs watermark_file_path = some ⟨pg :: rest⟩) :
    ∃ out fs2 out_pdf,
      add_watermark fs input_file_path watermark_file_path tmp_path = (Except.ok out, fs2) ∧
      fsRead fs2 out = some out_pdf ∧
      out_pdf.pages.length = input_pdf.pages.length ∧
      out_pdf.pages = input_pdf.pages.map (fun q => Page.merged q pg) := by
  refine ⟨_, _, ⟨input_pdf.pages.map (fun q => Page.merged q pg)⟩,
    add_watermark_ok fs input_file_path watermark_file_path tmp_path input_pdf pg rest hin hwm,
    fsRead_fsWrite_self _ _ _, ?_, rfl⟩
  simp

/-- Witness for C5: a three-page input and a one-page watermark produce a
three-page output. -/
theorem add_watermark_preserves_page_count_witness :
    ∃ out fs2 out_pdf,
      add_watermark
          [(⟨"d", "a", ".pdf"⟩, ⟨[Page.content 0, Page.content 1, Page.content 2]⟩),
           (⟨"t", "w", ".pdf"⟩, ⟨[Page.rendered "W"]⟩)]
          ⟨"d", "a", ".pdf"⟩ ⟨"t", "w", ".pdf"⟩ ⟨"t", "z", ".pdf"⟩ = (Except.ok out, fs2) ∧
      fsRead fs2 out = some out_pdf ∧
      out_pdf.pages.length =
        (⟨[Page.content 0, Page.content 1, Page.content 2]⟩ : PdfDoc).pages.length ∧
      out_pdf.pages = (⟨[Page.content 0, Page.content 1, Page.content 2]⟩ : PdfDoc).pages.map
        (fun q => Page.merged q (Page.rendered "W")) :=
  add_watermark_preserves_page_count _ _ _ _ ⟨[Page.content 0, Page.content 1, Page.content 2]⟩
    (Page.rendered "W") [] (by decide) (by decide)

/-- C6: `ensure_new_file` returns a path at which no entry exists at call
time (the fuelled loop is proved total, so the assumption that the loop
terminates always holds), and consequently the output path `add_watermark`
writes to is never a path that existed before the call. -/
theorem resolved_path_never_exists :
    (∀ (existing : List FsPath) (p : FsPath), ensure_new_file existing p ∉ existing) ∧
    (∀ (fs : Fs) (input_file_path watermark_file_path tmp_path out : FsPath) (fs2 : Fs),
      add_watermark fs input_file_path watermark_file_path tmp_path = (Except.ok out, fs2) →
      out ∉ fsPaths fs) := by
  refine ⟨ensure_new_file_not_mem, ?_⟩
  intro fs input_file_path watermark_file_path tmp_path out fs2 h
  simp only [add_watermark, duplicate_watermark] at h
  repeat' split at h
  all_goals simp only [Prod.mk.injEq] at h
  all_goals obtain ⟨h1, -⟩ := h
  all_goals first
    | exact Except.noConfusion h1
    | (injection h1 with h1; rw [← h1]; exact ensure_new_file_not_mem _ _)

/-- Witness for C6: a concrete successful `add_watermark` run whose output
path `a_watermarked.pdf` did not exist in the starting filesystem. -/
theorem resolved_path_never_exists_witness :
    (⟨"d", "a_watermarked", ".pdf"⟩ : FsPath) ∉
      fsPaths [(⟨"d", "a", ".pdf"⟩, (⟨[Page.content 0]⟩ : PdfDoc)),
        (⟨"t", "w", ".pdf"⟩, ⟨[Page.rendered "W"]⟩)] ∧
    ensure_new_file [⟨"d", "a", ".pdf"⟩] ⟨"d", "a", ".pdf"⟩ ∉
      [(⟨"d", "a", ".pdf"⟩ : FsPath)] :=
  ⟨resolved_path_never_exists.2
      [(⟨"d", "a", ".pdf"⟩, ⟨[Page.content 0]⟩), (⟨"t", "w", ".pdf"⟩, ⟨[Page.rendered "W"]⟩)]
      ⟨"d", "a", ".pdf"⟩ ⟨"t", "w", ".pdf"⟩ ⟨"t", "z", ".pdf"⟩ ⟨"d", "a_watermarked", ".pdf"⟩
      [(⟨"d", "a_watermarked", ".pdf"⟩, ⟨[Page.merged (Page.content 0) (Page.rendered "W")]⟩),
       (⟨"t", "z", ".pdf"⟩, ⟨[Page.rendered "W"]⟩),
       (⟨"d", "a", ".pdf"⟩, ⟨[Page.content 0]⟩),
       (⟨"t", "w", ".pdf"⟩, ⟨[Page.rendered "W"]⟩)]
      (by decide),
   resolved_path_never_exists.1 [⟨"d", "a", ".pdf"⟩] ⟨"d", "a", ".pdf"⟩⟩

/-- C8: on a zero-page input document (and a readable non-empty watermark),
`add_watermark` does not fail: the watermark is replicated zero times, the
merge loop runs zero iterations, and a zero-page output document is
written at the resolved path. -/
theorem add_watermark_zero_page_input
    (fs : Fs) (input_file_path watermark_file_path tmp_path : FsPath)
    (pg : Page) (rest : List Page)
    (hin : fsRead fs input_file_path = some ⟨[]⟩)
    (hwm : fsRead fs watermark_file_path = some ⟨pg :: rest⟩) :
    ∃ out fs2,
      add_watermark fs input_file_path watermark_file_path tmp_path = (Except.ok out, fs2) ∧
      fsRead fs2 out = some ⟨[]⟩ := by
  refine ⟨_, _,
    add_watermark_ok fs input_file_path watermark_file_path tmp_path ⟨[]⟩ pg rest hin hwm, ?_⟩
  simpa using fsRead_fsWrite_self _ _ _

/-- Witness for C8: a concrete zero-page input yields a zero-page output. -/
theorem add_watermark_zero_page_input_witness :
    ∃ out fs2,
      add_watermark [(⟨"d", "a", ".pdf"⟩, (⟨[]⟩ : PdfDoc)),
          (⟨"t", "w", ".pdf"⟩, ⟨[Page.rendered "W"]⟩)]
        ⟨"d", "a", ".pdf"⟩ ⟨"t", "w", ".pdf"⟩ ⟨"t", "z", ".pdf"⟩ = (Except.ok out, fs2) ∧
      fsRead fs2 out = some ⟨[]⟩ :=
  add_watermark_zero_page_input _ _ _ _ (Page.rendered "W") [] (by decide) (by decide)

/-- C7: one full pipeline run (render, replicate, resolve, merge) leaves the
input file unchanged — provided the temp-directory names drawn by `mkstemp`
live outside the input's directory, every write of the run targets a path
different from the input path, and the resolved output path itself always
differs from the input path. -/
theorem run_once_preserves_input
    (text : String) (wm_tmp dup_tmp input_file : FsPath) (fs : Fs) (input_pdf : PdfDoc)
    (hlen : text.length < MAX_TEXT_LENGTH)
    (hin : fsRead fs input_file = some input_pdf)
    (hwm : wm_tmp.parent ≠ input_file.parent)
    (hdup : dup_tmp.parent ≠ input_file.parent) :
    ∃ out fs2, run_once text wm_tmp dup_tmp input_file fs = (Except.ok out, fs2) ∧
      out ≠ input_file ∧
      fsRead fs2 input_file = fsRead fs input_file := by
  have hw_ne : correct_pdf_path wm_tmp ≠ input_file :=
    ne_of_parent_ne (by rw [correct_pdf_path_parent]; exact hwm)
  have hd_ne : correct_pdf_path dup_tmp ≠ input_file :=
    ne_of_parent_ne (by rw [correct_pdf_path_parent]; exact hdup)
  have hin1 : fsRead (fsWrite fs (correct_pdf_path wm_tmp) (renderDoc text)) input_file
      = some input_pdf := by
    rw [fsRead_fsWrite_ne _ _ hw_ne, hin]
  have hwm1 : fsRead (fsWrite fs (correct_pdf_path wm_tmp) (renderDoc text))
      (correct_pdf_path wm_tmp) = some ⟨Page.rendered text :: []⟩ :=
    fsRead_fsWrite_self _ _ _
  rw [run_once_eq text wm_tmp dup_tmp input_file fs hlen,
    add_watermark_ok _ _ _ _ input_pdf (Page.rendered text) [] hin1 hwm1]
  refine ⟨_, _, rfl, ensure_new_file_ne_input _ _, ?_⟩
  rw [fsRead_fsWrite_ne _ _ (ensure_new_file_ne_input _ _),
    fsRead_fsWrite_ne _ _ hd_ne, fsRead_fsWrite_ne _ _ hw_ne]

/-- Witness for C7: a concrete run whose output path differs from the input
path and whose final filesystem still reads the original input document. -/
theorem run_once_preserves_input_witness :
    ∃ out fs2,
      run_once "CONFIDENTIAL" ⟨"t", "w", ".pdf"⟩ ⟨"t", "z", ".pdf"⟩ ⟨"d", "a", ".pdf"⟩
          [(⟨"d", "a", ".pdf"⟩, ⟨[Page.content 0]⟩)] = (Except.ok out, fs2) ∧
      out ≠ ⟨"d", "a", ".pdf"⟩ ∧
      fsRead fs2 ⟨"d", "a", ".pdf"⟩ =
        fsRead [(⟨"d", "a", ".pdf"⟩, ⟨[Page.content 0]⟩)] ⟨"d", "a", ".pdf"⟩ :=
  run_once_preserves_input "CONFIDENTIAL" ⟨"t", "w", ".pdf"⟩ ⟨"t", "z", ".pdf"⟩
    ⟨"d", "a", ".pdf"⟩ [(⟨"d", "a", ".pdf"⟩, ⟨[Page.content 0]⟩)] ⟨[Page.content 0]⟩
    (by decide) (by decide) (by decide) (by decide)

/-- C2: starting from a state with no `_watermarked` output for the input
(and temp names outside the input's directory), two successive pipeline runs
on the same input and text produce the two distinct outputs
`<stem>_watermarked.pdf` then `<stem>_watermarked_1.pdf`, and the second run
leaves the first run's output file exactly as the first run wrote it. -/
theorem run_twice_distinct_outputs
    (text : String) (wm_tmp1 dup_tmp1 wm_tmp2 dup_tmp2 input_file : FsPath)
    (fs : Fs) (input_pdf : PdfDoc)
    (hlen : text.length < MAX_TEXT_LENGTH)
    (hin : fsRead fs input_file = some input_pdf)
    (h1 : wm_tmp1.parent ≠ input_file.parent)
    (h2 : dup_tmp1.parent ≠ input_file.parent)
    (h3 : wm_tmp2.parent ≠ input_file.parent)
    (h4 : dup_tmp2.parent ≠ input_file.parent)
    (habs0 : watermarked_path input_file ∉ fsPaths fs)
    (habs1 : (⟨input_file.parent, input_file.stem ++ "_watermarked_1", ".pdf"⟩ : FsPath)
      ∉ fsPaths fs) :
    ∃ fsA fsB doc1,
      run_once text wm_tmp1 dup_tmp1 input_file fs =
        (Except.ok (watermarked_path input_file), fsA) ∧
      fsRead fsA (watermarked_path input_file) = some doc1 ∧
      run_once text wm_tmp2 dup_tmp2 input_file fsA =
        (Except.ok ⟨input_file.parent, input_file.stem ++ "_watermarked_1", ".pdf"⟩, fsB) ∧
      (⟨input_file.parent, input_file.stem ++ "_watermarked_1", ".pdf"⟩ : FsPath)
          ≠ watermarked_path input_file ∧
      fsRead fsB (watermarked_path input_file) = some doc1 := by
  have hc1 : nextCandidate (watermarked_path input_file) 1 =
      ⟨input_file.parent, input_file.stem ++ "_watermarked_1", ".pdf"⟩ := by
    simp only [nextCandidate, watermarked_path]
    congr 1
    simp only [String.append_assoc]
    congr 1
  have hne_tmp : ∀ t : FsPath, t.parent ≠ input_file.parent →
      watermarked_path input_file ≠ correct_pdf_path t := by
    intro t ht heq
    apply ht
    have hpar := congrArg FsPath.parent heq
    rw [correct_pdf_path_parent] at hpar
    exact hpar.symm
  have hne_tmp1 : ∀ t : FsPath, t.parent ≠ input_file.parent →
      (⟨input_file.parent, input_file.stem ++ "_watermarked_1", ".pdf"⟩ : FsPath)
        ≠ correct_pdf_path t := by
    intro t ht heq
    apply ht
    have hpar := congrArg FsPath.parent heq
    rw [correct_pdf_path_parent] at hpar
    exact hpar.symm
  have hlit_ne : (⟨input_file.parent, input_file.stem ++ "_watermarked_1", ".pdf"⟩ : FsPath)
      ≠ watermarked_path input_file := by
    rw [← hc1]
    exact nextCandidate_ne _ _
  have hin1 : fsRead (fsWrite fs (correct_pdf_path wm_tmp1) (renderDoc text)) input_file
      = some input_pdf := by
    rw [fsRead_fsWrite_ne _ _ (ne_of_parent_ne (by rw [correct_pdf_path_parent]; exact h1)), hin]
  have hstep1 := add_watermark_ok (fsWrite fs (correct_pdf_path wm_tmp1) (renderDoc text))
    input_file (correct_pdf_path wm_tmp1) dup_tmp1 input_pdf (Page.rendered text) [] hin1
    (fsRead_fsWrite_self _ _ _)
  have hres1 : ensure_new_file
      (fsPaths (fsWrite fs (correct_pdf_path wm_tmp1) (renderDoc text)))
      (watermarked_path input_file) = watermarked_path input_file := by
    apply ensure_new_file_of_not_mem
    rw [fsPaths_fsWrite]
    intro hmem
    rcases List.mem_cons.mp hmem with hh | hh
    · exact hne_tmp wm_tmp1 h1 hh
    · exact habs0 hh
  have hrun1 : run_once text wm_tmp1 dup_tmp1 input_file fs =
      (Except.ok (watermarked_path input_file),
        fsWrite
          (fsWrite (fsWrite fs (correct_pdf_path wm_tmp1) (renderDoc text))
            (correct_pdf_path dup_tmp1)
            ⟨List.replicate input_pdf.pages.length (Page.rendered text)⟩)
          (watermarked_path input_file)
          ⟨input_pdf.pages.map (fun q => Page.merged q (Page.rendered text))⟩) := by
    rw [run_once_eq _ _ _ _ _ hlen, hstep1, hres1]
  have hinA : fsRead
      (fsWrite
        (fsWrite
          (fsWrite (fsWrite fs (correct_pdf_path wm_tmp1) (renderDoc text))
            (correct_pdf_path dup_tmp1)
            ⟨List.replicate input_pdf.pages.length (Page.rendered text)⟩)
          (watermarked_path input_file)
          ⟨input_pdf.pages.map (fun q => Page.merged q (Page.rendered text))⟩)
        (correct_pdf_path wm_tmp2) (renderDoc text)) input_file = some input_pdf := by
    rw [fsRead_fsWrite_ne _ _ (ne_of_parent_ne (by rw [correct_pdf_path_parent]; exact h3)),
      fsRead_fsWrite_ne _ _ (watermarked_path_ne input_file),
      fsRead_fsWrite_ne _ _ (ne_of_parent_ne (by rw [correct_pdf_path_parent]; exact h2)),
      fsRead_fsWrite_ne _ _ (ne_of_parent_ne (by rw [correct_pdf_path_parent]; exact h1)),
      hin]
  have hstep2 := add_watermark_ok _ input_file (correct_pdf_path wm_tmp2) dup_tmp2
    input_pdf (Page.rendered text) [] hinA (fsRead_fsWrite_self _ _ _)
  have hres2 : ensure_new_file
      (fsPaths
        (fsWrite
          (fsWrite
            (fsWrite (fsWrite fs (correct_pdf_path wm_tmp1) (renderDoc text))
              (correct_pdf_path dup_tmp1)
              ⟨List.replicate input_pdf.pages.length (Page.rendered text)⟩)
            (watermarked_path input_file)
            ⟨input_pdf.pages.map (fun q => Page.merged q (Page.rendered text))⟩)
          (correct_pdf_path wm_tmp2) (renderDoc text)))
      (watermarked_path input_file) = nextCandidate (watermarked_path input_file) 1 := by
    apply ensure_new_file_of_mem_once
    · rw [fsPaths_fsWrite, fsPaths_fsWrite]
      exact List.mem_cons_of_mem _ (List.mem_cons_self _ _)
    · rw [hc1]
      simp only [fsPaths_fsWrite, List.mem_cons]
      push_neg
      exact ⟨hne_tmp1 wm_tmp2 h3, hlit_ne, hne_tmp1 dup_tmp1 h2, hne_tmp1 wm_tmp1 h1, habs1⟩
  have hrun2 : run_once text wm_tmp2 dup_tmp2 input_file
      (fsWrite
        (fsWrite (fsWrite fs (correct_pdf_path wm_tmp1) (renderDoc text))
          (correct_pdf_path dup_tmp1)
          ⟨List.replicate input_pdf.pages.length (Page.rendered text)⟩)
        (watermarked_path input_file)
        ⟨input_pdf.pages.map (fun q => Page.merged q (Page.rendered text))⟩) =
      (Except.ok ⟨input_file.parent, input_file.stem ++ "_watermarked_1", ".pdf"⟩,
        fsWrite
          (fsWrite
            (fsWrite
              (fsWrite
                (fsWrite (fsWrite fs (correct_pdf_path wm_tmp1) (renderDoc text))
                  (correct_pdf_path dup_tmp1)
                  ⟨List.replicate input_pdf.pages.length (Page.rendered text)⟩)
                (watermarked_path input_file)
                ⟨input_pdf.pages.map (fun q => Page.merged q (Page.rendered text))⟩)
              (correct_pdf_path wm_tmp2) (renderDoc text))
            (correct_pdf_path dup_tmp2)
            ⟨List.replicate input_pdf.pages.length (Page.rendered text)⟩)
          ⟨input_file.parent, input_file.stem ++ "_watermarked_1", ".pdf"⟩
          ⟨input_pdf.pages.map (fun q => Page.merged q (Page.rendered text))⟩) := by
    rw [run_once_eq _ _ _ _ _ hlen, hstep2, hres2, hc1]
  have hreadB : fsRead
      (fsWrite
        (fsWrite
          (fsWrite
            (fsWrite
              (fsWrite (fsWrite fs (correct_pdf_path wm_tmp1) (renderDoc text))
                (correct_pdf_path dup_tmp1)
                ⟨List.replicate input_pdf.pages.length (Page.rendered text)⟩)
              (watermarked_path input_file)
              ⟨input_pdf.pages.map (fun q => Page.merged q (Page.rendered text))⟩)
            (correct_pdf_path wm_tmp2) (renderDoc text))
          (correct_pdf_path dup_tmp2)
          ⟨List.replicate input_pdf.pages.length (Page.rendered text)⟩)
        ⟨input_file.parent, input_file.stem ++ "_watermarked_1", ".pdf"⟩
        ⟨input_pdf.pages.map (fun q => Page.merged q (Page.rendered text))⟩)
      (watermarked_path input_file) =
      some ⟨input_pdf.pages.map (fun q => Page.merged q (Page.rendered text))⟩ := by
    rw [fsRead_fsWrite_ne _ _ hlit_ne,
      fsRead_fsWrite_ne _ _ (Ne.symm (hne_tmp dup_tmp2 h4)),
      fsRead_fsWrite_ne _ _ (Ne.symm (hne_tmp wm_tmp2 h3)),
      fsRead_fsWrite_self]
  exact ⟨_, _, ⟨input_pdf.pages.map (fun q => Page.merged q (Page.rendered text))⟩,
    hrun1, fsRead_fsWrite_self _ _ _, hrun2, hlit_ne, hreadB⟩

/-- Witness for C2: two concrete runs on `a.pdf` produce `a_watermarked.pdf`
and then `a_watermarked_1.pdf`, leaving the first output intact. -/
theorem run_twice_distinct_outputs_witness :
    ∃ fsA fsB doc1,
      run_once "WM" ⟨"t", "w1", ".pdf"⟩ ⟨"t", "z1", ".pdf"⟩ ⟨"d", "a", ".pdf"⟩
          [(⟨"d", "a", ".pdf"⟩, ⟨[Page.content 0]⟩)] =
        (Except.ok (watermarked_path ⟨"d", "a", ".pdf"⟩), fsA) ∧
      fsRead fsA (watermarked_path ⟨"d", "a", ".pdf"⟩) = some doc1 ∧
      run_once "WM" ⟨"t", "w2", ".pdf"⟩ ⟨"t", "z2", ".pdf"⟩ ⟨"d", "a", ".pdf"⟩ fsA =
        (Except.ok ⟨"d", (FsPath.mk "d" "a" ".pdf").stem ++ "_watermarked_1", ".pdf"⟩, fsB) ∧
      (⟨"d", (FsPath.mk "d" "a" ".pdf").stem ++ "_watermarked_1", ".pdf"⟩ : FsPath)
          ≠ watermarked_path ⟨"d", "a", ".pdf"⟩ ∧
      fsRead fsB (watermarked_path ⟨"d", "a", ".pdf"⟩) = some doc1 :=
  run_twice_distinct_outputs "WM" ⟨"t", "w1", ".pdf"⟩ ⟨"t", "z1", ".pdf"⟩
    ⟨"t", "w2", ".pdf"⟩ ⟨"t", "z2", ".pdf"⟩ ⟨"d", "a", ".pdf"⟩
    [(⟨"d", "a", ".pdf"⟩, ⟨[Page.content 0]⟩)] ⟨[Page.content 0]⟩
    (by decide) (by decide) (by decide) (by decide) (by decide) (by decide)
    (by decide) (by decide)
